import Mathlib

/-!
Verification of the PDF-editor core against its specification.

The definitions below are shallow embeddings of the TypeScript sources:
* `mapToExportCoords` from `coordinate-utils` (src/unnamed/part_000),
* the zustand editor store (src/unnamed/part_004, second document),
* `PDFEditor.applyAnnotations`, `needsUnicodeFont`, `toWinAnsiSafe` from
  `pdf-editor` (src/unnamed/part_006, second document),
* the native-text-layer click/blur logic (NativeTextLayer.tsx and the
  `handleNativeTextClick` callback in src/unnamed/part_003).

JavaScript numbers are modelled as `ℚ` (the claims involve only exact
decimal arithmetic), JS strings as `List Char` of Unicode scalar values,
and `x || default` / `x ?? default` fallbacks on optional fields as
explicit `Option` handling.
-/

namespace PdfEditor

/-- The record returned by `mapToExportCoords`. -/
structure ExportRect where
  x : ℚ
  y : ℚ
  width : ℚ
  height : ℚ
  deriving DecidableEq, Repr

/-- Embedding of `mapToExportCoords` (coordinate-utils).  Maps a visual
rectangle (top-left origin, rotation applied) to PDF export coordinates
(bottom-left origin, rotation 0).  JS `%` truncates toward zero, hence
`Int.tmod`. -/
def mapToExportCoords (visualX visualY visualWidth visualHeight
    pageWidth pageHeight : ℚ) (rotation : ℤ) : ExportRect :=
  let rot := Int.tmod rotation 360
  if rot = 90 then
    { x := visualY, y := visualX, width := visualHeight, height := visualWidth }
  else if rot = 180 then
    { x := pageWidth - visualX - visualWidth, y := visualY,
      width := visualWidth, height := visualHeight }
  else if rot = 270 then
    { x := pageWidth - visualY - visualHeight,
      y := pageHeight - visualX - visualWidth,
      width := visualHeight, height := visualWidth }
  else
    { x := visualX, y := pageHeight - visualY - visualHeight,
      width := visualWidth, height := visualHeight }

/-- Modelled from the spec: the inverse transform of `mapToExportCoords`,
re-deriving visual coordinates from export coordinates using the known
page size and rotation (§8 "Round-trip"; no such function exists in the
source, the spec defines it as "the inverse"). -/
def mapFromExportCoords (x y w h pageWidth pageHeight : ℚ)
    (rotation : ℤ) : ExportRect :=
  let rot := Int.tmod rotation 360
  if rot = 90 then
    { x := y, y := x, width := h, height := w }
  else if rot = 180 then
    { x := pageWidth - x - w, y := y, width := w, height := h }
  else if rot = 270 then
    { x := pageHeight - y - h, y := pageWidth - x - w, width := h, height := w }
  else
    { x := x, y := pageHeight - y - h, width := w, height := h }

/-! ## Data model (editor-store, src/unnamed/part_004, second document)

`Annotation.data` is `any` in the source; the fields actually read by the
code under verification are modelled, with `Option` for fields that the
code guards with `!= null` / `??` / truthiness checks.  Styling fields
(color, fontFamily, thickness, opacity, size) are read only to choose
paint parameters and are not modelled — no claim depends on them. -/

/-- The `Tool` union; annotation `type` values are drawn from it. -/
inductive AnnType
  | select | hand | text | draw | shape | highlight | image | eraser
  deriving DecidableEq, Repr

inductive ShapeKind
  | rectangle | circle | line | arrow | polygon
  deriving DecidableEq, Repr

/-- Models the data-URL kind of `data.imageData` (the code dispatches on the
string starting with `data:image/png`, `data:image/jpeg`, `data:image/jpg`). -/
inductive ImgKind
  | png | jpeg | other
  deriving DecidableEq, Repr

structure Pt where
  x : ℚ
  y : ℚ
  deriving DecidableEq, Repr

/-- `data.nativeEditOrigin`: `o.x`/`o.y` are read unconditionally,
`o.width`/`o.height` through null checks. -/
structure NativeEditOrigin where
  x : ℚ
  y : ℚ
  width : Option ℚ := none
  height : Option ℚ := none
  deriving DecidableEq, Repr

structure AnnData where
  text : Option (List Char) := none
  x : ℚ := 0
  y : ℚ := 0
  baselineY : Option ℚ := none
  width : Option ℚ := none
  height : Option ℚ := none
  fontSize : Option ℚ := none
  isNativeEdit : Bool := false
  originalTextId : Option String := none
  nativeEditOrigin : Option NativeEditOrigin := none
  points : Option (List Pt) := none
  shapeType : Option ShapeKind := none
  imageData : Option ImgKind := none
  deriving DecidableEq, Repr

structure Annotation where
  id : String
  type : AnnType
  pageId : String
  data : AnnData
  timestamp : ℤ := 0
  deriving DecidableEq, Repr

inductive PageType
  | original | blank
  deriving DecidableEq, Repr

structure PageInfo where
  id : String
  type : PageType
  originalIndex : Option ℕ := none
  rotation : ℤ
  deriving DecidableEq, Repr

/-! ## The editor store (useEditorStore, src/unnamed/part_004) -/

structure EditorState where
  pages : List PageInfo
  currentPage : ℕ
  totalPages : ℕ
  annotations : List Annotation
  selectedAnnotation : Option String
  history : List (List Annotation)
  historyIndex : ℕ
  deriving DecidableEq, Repr

/-- The store's initial state (pdfDocument/pdfFile/fileName, scale and tool
settings are external-facing fields no claim reads; they are omitted). -/
def initialState : EditorState :=
  { pages := [], currentPage := 1, totalPages := 0, annotations := [],
    selectedAnnotation := none, history := [[]], historyIndex := 0 }

/-- `setPdfDocument`: builds one original `PageInfo` per page and resets
annotations and history.  The `Date.now()` suffix on the generated ids is
dropped; the ids remain distinct. -/
def setPdfDocument (numPages : ℕ) (s : EditorState) : EditorState :=
  let initialPages : List PageInfo := (List.range numPages).map fun i =>
    { id := "p-" ++ toString (i + 1), type := PageType.original,
      originalIndex := some (i + 1), rotation := 0 }
  { s with
    pages := initialPages, totalPages := numPages, currentPage := 1,
    annotations := [], history := [[]], historyIndex := 0 }

def addAnnotation ( annotation : Annotation) (s : EditorState) : EditorState :=
  let newAnnotations := s.annotations ++ [ annotation]
  let newHistory := s.history.take (s.historyIndex + 1) ++ [newAnnotations]
  { s with
    annotations := newAnnotations, history := newHistory,
    historyIndex := s.historyIndex + 1 }

def removeAnnotation (id : String) (s : EditorState) : EditorState :=
  let newAnnotations := s.annotations.filter fun a => a.id ≠ id
  let newHistory := s.history.take (s.historyIndex + 1) ++ [newAnnotations]
  { s with
    annotations := newAnnotations, history := newHistory,
    historyIndex := s.historyIndex + 1, selectedAnnotation := none }

/-- `updateAnnotation(id, data)` replaces the matching annotation's data by
`{...a.data, ...data}`; the object-spread merge outcome is modelled as the
field update `patch`. -/
def updateAnnotation (id : String) (patch : AnnData → AnnData)
    (s : EditorState) : EditorState :=
  let newAnnotations := s.annotations.map fun a =>
    if a.id = id then { a with data := patch a.data } else a
  let newHistory := s.history.take (s.historyIndex + 1) ++ [newAnnotations]
  { s with
    annotations := newAnnotations, history := newHistory,
    historyIndex := s.historyIndex + 1 }

def selectAnnotation (id : Option String) (s : EditorState) : EditorState :=
  { s with
    selectedAnnotation := id }

/-- `undo`: move the cursor down if above 0; JS `history[historyIndex - 1]`
is in range in every state the actions produce (out-of-range access would be
`undefined`; modelled as `[]`). -/
def undo (s : EditorState) : EditorState :=
  if 0 < s.historyIndex then
    { s with
    annotations := s.history.getD (s.historyIndex - 1) [],
      historyIndex := s.historyIndex - 1 }
  else s

def redo (s : EditorState) : EditorState :=
  if s.historyIndex < s.history.length - 1 then
    { s with
    annotations := s.history.getD (s.historyIndex + 1) [],
      historyIndex := s.historyIndex + 1 }
  else s

/-- `addBlankPage`; the `Date.now()` in the generated id is a parameter. -/
def addBlankPage (now : ℤ) (atIndex : Option ℕ) (s : EditorState) :
    EditorState :=
  let newPage : PageInfo :=
    { id := "blank-" ++ toString now, type := PageType.blank, rotation := 0 }
  let insertIndex := atIndex.getD s.currentPage
  let newPages := s.pages.take insertIndex ++ [newPage] ++ s.pages.drop insertIndex
  { s with
    pages := newPages, totalPages := newPages.length,
    currentPage := insertIndex + 1 }

/-- `removePage`: removes the page and filters out its annotations.  Note it
does not touch `history`/`historyIndex`. -/
def removePage (pageId : String) (s : EditorState) : EditorState :=
  if s.pages.length ≤ 1 then s
  else
    let newPages := s.pages.filter fun p => p.id ≠ pageId
    let newCurrentPage :=
      if newPages.length < s.currentPage then newPages.length else s.currentPage
    let newAnnotations := s.annotations.filter fun a => a.pageId ≠ pageId
    { s with
    pages := newPages, totalPages := newPages.length,
      currentPage := newCurrentPage, annotations := newAnnotations }

def setPageRotation (pageId : String) (rotation : ℤ) (s : EditorState) :
    EditorState :=
  { s with
    pages := s.pages.map fun p =>
      if p.id = pageId then { p with rotation := Int.tmod (rotation + 360) 360 }
      else p }

def clearAnnotations (s : EditorState) : EditorState :=
  { s with
    annotations := [], history := [[]], historyIndex := 0,
    selectedAnnotation := none }

/-- The structural mutation calls of §4.2 (the three history-pushing
annotation operations). -/
inductive MutCall
  | add (a : Annotation)
  | remove (id : String)
  | update (id : String) (patch : AnnData → AnnData)

def MutCall.apply : MutCall → EditorState → EditorState
  | .add a => addAnnotation a
  | .remove id => removeAnnotation id
  | .update id patch => updateAnnotation id patch

/-- The public command surface used by the claims. -/
inductive Action
  | setPdfDocument (numPages : ℕ)
  | addAnnotation (a : Annotation)
  | removeAnnotation (id : String)
  | updateAnnotation (id : String) (patch : AnnData → AnnData)
  | selectAnnotation (id : Option String)
  | undo
  | redo
  | addBlankPage (now : ℤ) (atIndex : Option ℕ)
  | removePage (pageId : String)
  | setPageRotation (pageId : String) (rotation : ℤ)
  | clearAnnotations

def Action.apply : Action → EditorState → EditorState
  | .setPdfDocument n => PdfEditor.setPdfDocument n
  | Action.addAnnotation a => PdfEditor.addAnnotation a
  | Action.removeAnnotation id => PdfEditor.removeAnnotation id
  | Action.updateAnnotation id patch => PdfEditor.updateAnnotation id patch
  | Action.selectAnnotation id => PdfEditor.selectAnnotation id
  | .undo => PdfEditor.undo
  | .redo => PdfEditor.redo
  | .addBlankPage now i => PdfEditor.addBlankPage now i
  | .removePage pid => PdfEditor.removePage pid
  | .setPageRotation pid r => PdfEditor.setPageRotation pid r
  | .clearAnnotations => PdfEditor.clearAnnotations

/-- Run a sequence of public actions from the initial store. -/
def runActions (acts : List Action) : EditorState :=
  acts.foldl (fun s a => a.apply s) initialState

def runMutCalls (ms : List MutCall) (s : EditorState) : EditorState :=
  ms.foldl (fun s m => m.apply s) s

end PdfEditor

open PdfEditor

/-! ## History claims (C6, C7, C10) -/

/-- Concrete annotations on page "p-1" for the history scenarios. -/
def annA : Annotation :=
  { id := "A", type := AnnType.text, pageId := "p-1", data := {} }

def annB : Annotation :=
  { id := "B", type := AnnType.text, pageId := "p-1", data := {} }

def annC : Annotation :=
  { id := "C", type := AnnType.text, pageId := "p-1", data := {} }

/-! ## Layering order (C5), from PDFEditor.applyAnnotations -/

namespace PdfEditor

/-- The `layerOrder` record of `applyAnnotations`; the lookup
`layerOrder[a.type] ?? 3` falls back to 3 for types outside the record. -/
def layerRank : AnnType → ℕ
  | .highlight => 0
  | .shape => 1
  | .image => 2
  | .text => 3
  | .draw => 4
  | .eraser => 5
  | _ => 3

/-- `[...annotations].sort((a, b) => layerOrder[a.type] - layerOrder[b.type])`.
JS `Array.prototype.sort` is stable (ES2019), so it is modelled by a stable
sort on the same key. -/
def sortAnnotations (annotations : List Annotation) : List Annotation :=
  annotations.insertionSort fun a b => layerRank a.type ≤ layerRank b.type

/-! ## Unicode handling (pdf-editor, src/unnamed/part_006, second document) -/

/-- `needsUnicodeFont`: true when some code point falls outside the
WinAnsi-friendly Latin-1 range (the source's second `code >= 0x100` test is
subsumed by `code > 0xff` and kept verbatim). -/
def needsUnicodeFont (text : List Char) : Bool :=
  text.any fun c =>
    let code := c.toNat
    code ≤ 0x1f || code == 0x7f || (0x80 ≤ code && code ≤ 0x9f) ||
      0xff < code || 0x100 ≤ code

/-- `toWinAnsiSafe`: keep WinAnsi-encodable characters, replace the rest
by `?`. -/
def toWinAnsiSafe (text : List Char) : List Char :=
  text.map fun c =>
    let code := c.toNat
    if 0x20 ≤ code ∧ code ≤ 0x7e then c
    else if 0xa0 ≤ code ∧ code ≤ 0xff then c
    else '?'

/-- `text.split(/\r?\n/)`: split at each newline, dropping an immediately
preceding carriage return (`acc` holds the current chunk reversed). -/
def splitLinesAux : List Char → List Char → List (List Char)
  | [], acc => [acc.reverse]
  | c :: rest, acc =>
    if c = '\n' then
      (if acc.head? = some '\r' then acc.tail else acc).reverse ::
        splitLinesAux rest []
    else splitLinesAux rest (c :: acc)

def splitLines (text : List Char) : List (List Char) :=
  splitLinesAux text []

/-! ## The export merger op stream (PDFEditor.applyAnnotations)

The pdf-lib draw calls are recorded as a list of operations in program
order.  Paint parameters (color, opacity, thickness, line cap, the
`rotate` option, the eraser circle diameter) are not recorded — no claim
reads them; the geometry, the drawn strings and the kind of each call
are. -/

/-- A pdf-lib page as the merger reads it: its media-box size. -/
structure PdfPage where
  width : ℚ
  height : ℚ
  deriving DecidableEq, Repr

structure PageCtx where
  pageWidth : ℚ
  pageHeight : ℚ
  rotation : ℤ
  deriving DecidableEq, Repr

/-- `getPageCtx` of `applyAnnotations` (pass 2 repeats the same resolution
inline): find the annotation's `PageInfo`, require an original page with a
1-based `originalIndex` into the pdf-lib page list.  `rotation || 0` is
the identity on an always-set numeric field. -/
def getPageCtx (pdfPages : List PdfPage) (pagesInfo : List PageInfo)
    (ann : Annotation) : Option PageCtx :=
  match pagesInfo.find? (fun p => p.id == ann.pageId) with
  | none => none
  | some pageInfo =>
    if pageInfo.type = PageType.original then
      match pageInfo.originalIndex with
      | some k =>
        if h : 1 ≤ k ∧ k - 1 < pdfPages.length then
          let page := pdfPages.get ⟨k - 1, h.2⟩
          some { pageWidth := page.width, pageHeight := page.height,
                 rotation := pageInfo.rotation }
        else none
      | none => none
    else none

/-- One recorded pdf-lib draw call. -/
inductive Op
  | redactWhite (r : ExportRect)
  | drawText (s : List Char) (x y size : ℚ)
  | drawLine (x1 y1 x2 y2 : ℚ)
  | drawCircle (x y : ℚ)
  | drawRect (r : ExportRect)
  | drawEllipse (x y xScale yScale : ℚ)
  | drawImage (r : ExportRect)
  deriving DecidableEq, Repr

def Op.isRedactWhite : Op → Bool
  | .redactWhite _ => true
  | _ => false

/-- JS `value || default` on an optional numeric field (0 and a missing
field are both falsy). -/
def jsOr (o : Option ℚ) (d : ℚ) : ℚ :=
  match o with
  | some v => if v = 0 then d else v
  | none => d

/-- The `drawWhite` closure of pass 1: cap at MAX_WHITE_W × MAX_WHITE_H
(320 × 100), map to export space, expand by PAD = 4. -/
def whiteRect (ctx : PageCtx) (x y w h : ℚ) : ExportRect :=
  let wCap := min w 320
  let hCap := min h 100
  let pos := mapToExportCoords x y wCap hCap ctx.pageWidth ctx.pageHeight
    ctx.rotation
  ⟨pos.x - 4, pos.y - 4, pos.width + 4 * 2, pos.height + 4 * 2⟩

/-- Pass 1 of `applyAnnotations` for one annotation: the white redaction
rectangles of a text annotation (skipped for other types, missing/empty
text, or an unresolvable page). -/
def pass1RectsFor (pdfPages : List PdfPage) (pagesInfo : List PageInfo)
    ( annotation : Annotation) : List ExportRect :=
  if annotation.type ≠ AnnType.text then [] else
  match annotation.data.text with
  | none => []
  | some t =>
    if t = [] then [] else
    match getPageCtx pdfPages pagesInfo annotation with
    | none => []
    | some ctx =>
      let data := annotation.data
      let fontSize := jsOr data.fontSize 12
      let textToDraw := t
      let lineCount : ℕ :=
        max 1 ((splitLines textToDraw).filter (fun l => !l.isEmpty)).length
      let len : ℚ := if textToDraw.length = 0 then 1 else textToDraw.length
      let formulaW := fontSize * len * (1/2)
      let formulaH := (lineCount : ℚ) * fontSize * (22/25)
      let formulaH_Tight := (lineCount : ℚ) * fontSize * (13/20)
      let textW := min 320 (match data.width with
        | some w => if 0 < w then min w formulaW else formulaW
        | none => formulaW)
      let textH := min 100 (match data.height with
        | some h => if 0 < h then min h formulaH else formulaH
        | none => formulaH)
      let originRects :=
        if data.isNativeEdit then
          match data.nativeEditOrigin with
          | some o =>
            let ow := min 320 (match o.width with
              | some w => if 0 < w then w else formulaW
              | none => formulaW)
            let oh := min 100 (match o.height with
              | some h => if 0 < h then min h formulaH_Tight else formulaH_Tight
              | none => formulaH_Tight)
            let oBottom := o.y + (match o.height with
              | some h => h
              | none => oh)
            let rectY := oBottom - oh
            [whiteRect ctx o.x rectY ow oh]
          | none => []
        else []
      originRects ++ [whiteRect ctx data.x data.y textW textH]

def pass1OpsFor (pdfPages : List PdfPage) (pagesInfo : List PageInfo)
    ( annotation : Annotation) : List Op :=
  (pass1RectsFor pdfPages pagesInfo annotation).map Op.redactWhite

/-- Pass 2 of `applyAnnotations` for one annotation: the foreground draw
calls (text lines, stroke segments and eraser circles, shapes, images). -/
def pass2OpsFor (pdfPages : List PdfPage) (pagesInfo : List PageInfo)
    (cjkFontAvailable : Bool) ( annotation : Annotation) : List Op :=
  match getPageCtx pdfPages pagesInfo annotation with
  | none => []
  | some ctx =>
    let data := annotation.data
    let toPDF := fun (x y w h : ℚ) =>
      mapToExportCoords x y w h ctx.pageWidth ctx.pageHeight ctx.rotation
    match annotation.type with
    | AnnType.text =>
      match data.text with
      | none => []
      | some t =>
        if t = [] then [] else
        let fontSize := jsOr data.fontSize 12
        let lineHeight := fontSize * (6/5)
        let useCjk := cjkFontAvailable && needsUnicodeFont t
        let safeText := if useCjk then t else toWinAnsiSafe t
        let lines := splitLines safeText
        lines.enum.filterMap fun p =>
          if p.2 = [] then none
          else
            let linePos := toPDF data.x (data.y + (p.1 : ℚ) * lineHeight) 0
              fontSize
            some (Op.drawText p.2 linePos.x linePos.y fontSize)
    | AnnType.draw | AnnType.highlight | AnnType.eraser =>
      match data.points with
      | none => []
      | some path =>
        if 1 < path.length then
          let lineOps := (path.zip path.tail).map fun q =>
            let p1 := toPDF q.1.x q.1.y 0 0
            let p2 := toPDF q.2.x q.2.y 0 0
            Op.drawLine p1.x p1.y p2.x p2.y
          let circleOps :=
            if annotation.type = AnnType.eraser then
              path.map fun pt =>
                let p := toPDF pt.x pt.y 0 0
                Op.drawCircle p.x p.y
            else []
          lineOps ++ circleOps
        else []
    | AnnType.shape =>
      let pos := toPDF data.x data.y (data.width.getD 0) (data.height.getD 0)
      match data.shapeType with
      | some ShapeKind.rectangle =>
        [Op.drawRect ⟨pos.x, pos.y, pos.width, pos.height⟩]
      | some ShapeKind.circle =>
        [Op.drawEllipse (pos.x + pos.width / 2) (pos.y + pos.height / 2)
          (pos.width / 2) (pos.height / 2)]
      | _ => []
    | AnnType.image =>
      match data.imageData with
      | some ImgKind.png =>
        let pos := toPDF data.x data.y (data.width.getD 0) (data.height.getD 0)
        [Op.drawImage ⟨pos.x, pos.y, pos.width, pos.height⟩]
      | some ImgKind.jpeg =>
        let pos := toPDF data.x data.y (data.width.getD 0) (data.height.getD 0)
        [Op.drawImage ⟨pos.x, pos.y, pos.width, pos.height⟩]
      | _ => []
    | _ => []

/-- The op stream of `applyAnnotations`: pass 1 (all white redaction boxes
of all text annotations) then pass 2 (all foreground), both iterating the
layer-sorted list.  `cjkFontAvailable` records whether the Unicode fallback
font was fetched and embedded successfully (`cjkFont !== null`); fetch or
embed failures are caught in the source and leave it `null`. -/
def applyAnnotationsOps (pdfPages : List PdfPage)
    (annotations : List Annotation) (pagesInfo : List PageInfo)
    (cjkFontAvailable : Bool) : List Op :=
  if pdfPages.length = 0 then [] else
  let sorted := sortAnnotations annotations
  sorted.flatMap (pass1OpsFor pdfPages pagesInfo) ++
    sorted.flatMap (pass2OpsFor pdfPages pagesInfo cjkFontAvailable)

end PdfEditor

/-! ## Helper lemmas on the Unicode handling -/

/-! ## Redaction coverage (C4) -/

namespace PdfEditor

/-- The code's own estimate of a text run's width: `fontSize * length * 0.5`
(the char-count × font-size approximation the spec notes in §9; `formulaW`
in pass 1). -/
def estTextWidth (fontSize : ℚ) (len : ℕ) : ℚ :=
  fontSize * (len : ℚ) * (1/2)

/-- `outer` contains `inner` (both in export space, bottom-left origin). -/
def rectContains (outer inner : ExportRect) : Prop :=
  outer.x ≤ inner.x ∧ outer.y ≤ inner.y ∧
  inner.x + inner.width ≤ outer.x + outer.width ∧
  inner.y + inner.height ≤ outer.y + outer.height

end PdfEditor

/-- The spec's §8 scenario annotation: a native edit of a 12pt run "Hello"
(stored and origin box 33×12 at (10,10)) whose text was replaced by
"Hello, World". -/
def annNative : Annotation :=
  { id := "ne1", type := AnnType.text, pageId := "p-1",
    data := { text := some "Hello, World".toList,
              x := 10, y := 10, width := some 33, height := some 12,
              fontSize := some 12, isNativeEdit := true,
              nativeEditOrigin := some
                { x := 10, y := 10, width := some 33, height := some 12 } } }

/-- The same annotation before the edit, while its text is still "Hello". -/
def annNativeHello : Annotation :=
  { id := "ne1", type := AnnType.text, pageId := "p-1",
    data := { text := some "Hello".toList,
              x := 10, y := 10, width := some 33, height := some 12,
              fontSize := some 12, isNativeEdit := true,
              nativeEditOrigin := some
                { x := 10, y := 10, width := some 33, height := some 12 } } }

def c4PageInfo : PageInfo :=
  { id := "p-1", type := PageType.original, originalIndex := some 1,
    rotation := 0 }

def c4PdfPage : PdfPage := { width := 612, height := 792 }

/-! ## Two-pass ordering (C3) -/

/-! ## Unicode fallback degradation (C9) -/

/-- The annotation used by the C9 witness: its text mixes an encodable
character with a CJK one. -/
def c9Ann : Annotation :=
  { id := "t-cjk", type := AnnType.text, pageId := "p-1",
    data := { text := some ('H' :: '中' :: []), x := 10, y := 10,
              fontSize := some 12 } }

/-! ## Native-text edit protocol (C8) -/

namespace PdfEditor

/-- A rendered TextGroup as the click/blur handlers read it (grouping is
render-time only and not persisted). -/
structure TextGroup where
  id : String
  text : List Char
  x : ℚ
  y : ℚ
  yTop : ℚ
  baselineY : ℚ
  width : ℚ
  height : ℚ
  fontSize : ℚ
  deriving DecidableEq, Repr

/-- `hasNativeEditAnnotation` (NativeTextLayer.tsx): the duplicate lookup is
keyed on `originalTextId` alone — `pageId` is not part of the key. -/
def hasNativeEditAnnotation (annotations : List Annotation)
    (groupId : String) : Bool :=
  annotations.any fun a =>
    decide (a.type = AnnType.text) && a.data.isNativeEdit &&
      decide (a.data.originalTextId = some groupId)

/-- `handleNativeTextClick` (editor canvas, src/unnamed/part_003): builds a
fresh native-edit text annotation and adds it to the store.  The
`Date.now()` id suffix and timestamp are the `now` parameter; color and
font-family are styling fields, not modelled. -/
def handleNativeTextClick (now : ℤ) (currentPageId : String)
    (item : TextGroup) : Annotation :=
  { id := "text-edit-" ++ toString now, type := AnnType.text,
    pageId := currentPageId, timestamp := now,
    data := { text := some item.text, x := item.x, y := item.yTop,
              baselineY := some item.baselineY, width := some item.width,
              height := some item.height, fontSize := some item.fontSize,
              isNativeEdit := true, originalTextId := some item.id } }

/-- The state the native-text layer interacts with: the live annotation
list plus the group currently in in-place edit mode (history is pushed by
`addAnnotation` and is irrelevant to the at-most-one invariant). -/
structure LayerState where
  annotations : List Annotation
  editingId : Option String
  deriving DecidableEq, Repr

/-- A click on a text group (NativeTextLayer.tsx): the text tool always
enters in-place edit mode; the select tool creates a new annotation via
`onTextClick` only when no native-edit annotation exists for the group id
(otherwise `pointerEvents: none` lets the event fall through to the canvas,
which engages the existing annotation). -/
def clickGroup (now : ℤ) (tool : AnnType) (currentPageId : String)
    (g : TextGroup) (st : LayerState) : LayerState :=
  if tool = AnnType.text then { st with editingId := some g.id }
  else if tool = AnnType.select ∧
      ¬ hasNativeEditAnnotation st.annotations g.id then
    { st with annotations :=
        st.annotations ++ [handleNativeTextClick now currentPageId g] }
  else st

/-- `handleBlur` (NativeTextLayer.tsx): committing an in-place edit calls
`onTextClick` — adding a new annotation — whenever the edited text differs
from the group's original text, then leaves edit mode. -/
def blurCommit (now : ℤ) (currentPageId : String)
    (groups : List TextGroup) (newText : List Char) (st : LayerState) :
    LayerState :=
  match st.editingId with
  | none => st
  | some eid =>
    match groups.find? (fun g => g.id == eid) with
    | none => { st with editingId := none }
    | some g =>
      if newText ≠ g.text then
        { annotations := st.annotations ++
            [handleNativeTextClick now currentPageId
              { g with text := newText }],
          editingId := none }
      else { st with editingId := none }

/-- The number of live native-edit annotations keyed by
`(pageId, originalTextId)`. -/
def countNativeEdits (annotations : List Annotation)
    (pageId gid : String) : ℕ :=
  (annotations.filter fun a =>
    decide (a.type = AnnType.text) && a.data.isNativeEdit &&
      decide (a.pageId = pageId) &&
      decide (a.data.originalTextId = some gid)).length

end PdfEditor

/-- The text group used by the C8 scenarios. -/
def c8Group : TextGroup :=
  { id := "g1", text := "Hello".toList, x := 10, y := 10, yTop := 10,
    baselineY := 20, width := 33, height := 12, fontSize := 12 }

/-- C1: `mapToExportCoords` realises exactly the four piecewise formulas of
the spec — at 0° `(x, pageHeight−y−h)` with size unchanged, at 90°
`(visualY, visualX)` with width/height swapped, at 180°
`(pageWidth−x−w, y)` with size unchanged, at 270°
`(pageWidth−visualY−h, pageHeight−visualX−w)` with width/height swapped —
and on a 612×792 page rotated 90° the visual rectangle (10,10,100,50)
maps to the export rectangle (10,10,50,100). -/
theorem c1_mapToExportCoords_piecewise :
    (∀ vx vy vw vh pw ph : ℚ,
      mapToExportCoords vx vy vw vh pw ph 0 =
        ⟨vx, ph - vy - vh, vw, vh⟩ ∧
      mapToExportCoords vx vy vw vh pw ph 90 =
        ⟨vy, vx, vh, vw⟩ ∧
      mapToExportCoords vx vy vw vh pw ph 180 =
        ⟨pw - vx - vw, vy, vw, vh⟩ ∧
      mapToExportCoords vx vy vw vh pw ph 270 =
        ⟨pw - vy - vh, ph - vx - vw, vh, vw⟩) ∧
    mapToExportCoords 10 10 100 50 612 792 90 = ⟨10, 10, 50, 100⟩ := by
  have t0 : Int.tmod 0 360 = 0 := by decide
  have t90 : Int.tmod 90 360 = 90 := by decide
  have t180 : Int.tmod 180 360 = 180 := by decide
  have t270 : Int.tmod 270 360 = 270 := by decide
  constructor
  · intro vx vy vw vh pw ph
    refine ⟨?_, ?_, ?_, ?_⟩ <;>
      simp [mapToExportCoords, t0, t90, t180, t270]
  · simp [mapToExportCoords, t90]

/-- C2: for every rotation in {0,90,180,270} and every rectangle within the
page bounds, mapping to export coordinates and re-deriving the visual
rectangle by the inverse transform returns the original rectangle (exactly,
hence a fortiori within floating-point tolerance). -/
theorem c2_export_roundtrip (vx vy vw vh pw ph : ℚ) (rotation : ℤ)
    (hrot : rotation = 0 ∨ rotation = 90 ∨ rotation = 180 ∨ rotation = 270)
    (hbounds : 0 ≤ vx ∧ 0 ≤ vy ∧ 0 ≤ vw ∧ 0 ≤ vh) :
    (let e := mapToExportCoords vx vy vw vh pw ph rotation
     mapFromExportCoords e.x e.y e.width e.height pw ph rotation =
       ⟨vx, vy, vw, vh⟩) := by
  have t0 : Int.tmod 0 360 = 0 := by decide
  have t90 : Int.tmod 90 360 = 90 := by decide
  have t180 : Int.tmod 180 360 = 180 := by decide
  have t270 : Int.tmod 270 360 = 270 := by decide
  rcases hrot with h | h | h | h <;> subst h <;>
    simp [mapToExportCoords, mapFromExportCoords, t0, t90, t180, t270,
      ExportRect.mk.injEq] <;>
    ring_nf <;> simp

/-- Witness for C2 at the spec's concrete scenario. -/
theorem c2_export_roundtrip_witness :
    (let e := mapToExportCoords 10 10 100 50 612 792 90
     mapFromExportCoords e.x e.y e.width e.height 612 792 90 =
       ⟨10, 10, 100, 50⟩) :=
  c2_export_roundtrip 10 10 100 50 612 792 90 (by norm_num) (by norm_num)

/-- Every structural mutation truncates the history to the first
`historyIndex + 1` snapshots, appends the new annotation list, and advances
the cursor by one. -/
theorem mutCall_apply_history (m : MutCall) (s : EditorState) :
    (m.apply s).history =
      s.history.take (s.historyIndex + 1) ++ [(m.apply s).annotations] ∧
    (m.apply s).historyIndex = s.historyIndex + 1 := by
  cases m <;>
    simp [MutCall.apply, addAnnotation, removeAnnotation, updateAnnotation]

/-- Running mutation calls from any state with a valid cursor advances the
cursor by the number of calls and keeps it strictly inside the history. -/
theorem runMutCalls_invariant (ms : List MutCall) (s : EditorState)
    (h : s.historyIndex + 1 ≤ s.history.length) :
    (runMutCalls ms s).historyIndex = s.historyIndex + ms.length ∧
    (runMutCalls ms s).historyIndex + 1 ≤ (runMutCalls ms s).history.length := by
  induction ms generalizing s with
  | nil => simpa [runMutCalls] using h
  | cons m ms ih =>
    have h1 := mutCall_apply_history m s
    have hlen : (m.apply s).history.length = s.historyIndex + 2 := by
      rw [h1.1]
      simp [List.length_take]
      omega
    have hstep : runMutCalls (m :: ms) s = runMutCalls ms (m.apply s) := by
      simp [runMutCalls]
    have := ih (m.apply s) (by omega)
    rw [hstep]
    constructor
    · rw [this.1, h1.2]; simp [Nat.add_assoc, Nat.add_comm 1 ms.length]
    · exact this.2

/-- C6: from the initial store, every add/remove/update call truncates the
history to the first `historyIndex+1` snapshots, appends one snapshot and
increments the cursor; after any sequence of N mutation calls the number of
undoable steps equals N with `historyIndex < history.length`; and
`add(A); add(B); undo(); add(C)` ends with annotations `[A, C]`,
`historyIndex = 2`, `history.length = 3`, the snapshot containing `B`
discarded. -/
theorem c6_history_completeness :
    (∀ (m : MutCall) (s : EditorState),
       (m.apply s).history =
         s.history.take (s.historyIndex + 1) ++ [(m.apply s).annotations] ∧
       (m.apply s).historyIndex = s.historyIndex + 1) ∧
    (∀ ms : List MutCall,
       (runMutCalls ms initialState).historyIndex = ms.length ∧
       (runMutCalls ms initialState).historyIndex <
         (runMutCalls ms initialState).history.length) ∧
    ((runActions [Action.addAnnotation annA, Action.addAnnotation annB, .undo,
        Action.addAnnotation annC]).annotations = [annA, annC] ∧
     (runActions [Action.addAnnotation annA, Action.addAnnotation annB, .undo,
        Action.addAnnotation annC]).historyIndex = 2 ∧
     (runActions [Action.addAnnotation annA, Action.addAnnotation annB, .undo,
        Action.addAnnotation annC]).history = [[], [annA], [annA, annC]]) := by
  refine ⟨mutCall_apply_history, fun ms => ?_, by decide⟩
  have h := runMutCalls_invariant ms initialState (by simp [initialState])
  have h2 := h.2
  refine ⟨?_, by omega⟩
  rw [h.1]
  simp [initialState]

/-- C7 counterexample: after `setPdfDocument 2; add(A on p-1); removePage(p-1)`
the cursor is above 0, `undo()` does move it down, yet the immediately
following `redo()` yields annotations `[A]` while the state before the pair
had annotations `[]` — the pair does not restore the annotation state. -/
theorem c7_counterexample :
    0 < (runActions [.setPdfDocument 2, Action.addAnnotation annA,
          .removePage "p-1"]).historyIndex ∧
    (undo (runActions [.setPdfDocument 2, Action.addAnnotation annA,
          .removePage "p-1"])).historyIndex =
      (runActions [.setPdfDocument 2, Action.addAnnotation annA,
          .removePage "p-1"]).historyIndex - 1 ∧
    (redo (undo (runActions [.setPdfDocument 2, Action.addAnnotation annA,
          .removePage "p-1"]))).annotations ≠
      (runActions [.setPdfDocument 2, Action.addAnnotation annA,
          .removePage "p-1"]).annotations := by decide

/-- C7 (amended): `undo()`/`redo()` move the cursor by one when in bounds and
are no-ops at the boundaries; and in every state whose live annotation list
equals the current history snapshot (true in all states reachable without a
`removePage` after the last history write), an undo that moves the cursor
followed by `redo()` restores the state exactly. -/
theorem c7_undo_redo (s : EditorState) :
    ((s.historyIndex = 0 → undo s = s) ∧
     (0 < s.historyIndex → (undo s).historyIndex = s.historyIndex - 1) ∧
     (s.history.length - 1 ≤ s.historyIndex → redo s = s) ∧
     (s.historyIndex < s.history.length - 1 →
       (redo s).historyIndex = s.historyIndex + 1)) ∧
    (s.historyIndex < s.history.length →
      s.history.getD s.historyIndex [] = s.annotations →
      0 < s.historyIndex → redo (undo s) = s) := by
  refine ⟨⟨?_, ?_, ?_, ?_⟩, ?_⟩
  · intro h; simp [undo, h]
  · intro h; simp [undo, h]
  · intro h; simp [redo, Nat.not_lt.mpr h]
  · intro h; simp [redo, h]
  · intro hlt hs hpos
    obtain ⟨pages, cur, tot, anns, sel, hist, idx⟩ := s
    dsimp only at hlt hs hpos
    have h2 : idx - 1 < hist.length - 1 := by omega
    have h3 : idx - 1 + 1 = idx := by omega
    rw [List.getD_eq_getElem?_getD] at hs
    simp [undo, redo, hpos, h2, h3, hs]

/-- Witness for C7's amended theorem: after a single add, undo-then-redo
restores the state. -/
theorem c7_undo_redo_witness :
    redo (undo (runActions [Action.addAnnotation annA])) =
      runActions [Action.addAnnotation annA] :=
  (c7_undo_redo (runActions [Action.addAnnotation annA])).2
    (by decide) (by decide) (by decide)

/-- C10 (code bug): `removePage("p-1")` does delete the annotations of the
removed page, but the reachable sequence
`setPdfDocument 2; add(A on p-1); removePage("p-1"); undo(); redo()`
resurrects A from the unpurged history: the final state contains an
annotation whose `pageId` matches no live page. -/
theorem c10_dangling_annotation :
    (runActions [.setPdfDocument 2, Action.addAnnotation annA,
        .removePage "p-1"]).annotations = [] ∧
    ∃ a ∈ (runActions [.setPdfDocument 2, Action.addAnnotation annA,
        .removePage "p-1", .undo, .redo]).annotations,
      ∀ p ∈ (runActions [.setPdfDocument 2, Action.addAnnotation annA,
        .removePage "p-1", .undo, .redo]).pages, p.id ≠ a.pageId := by
  decide

/-- C5 counterexample: two text annotations given in swapped input orders
produce different output orderings (the sort key is only the type, ties keep
input order), refuting "any input order produces identical output ordering". -/
theorem c5_counterexample :
    sortAnnotations [annA, annB] = [annA, annB] ∧
    sortAnnotations [annB, annA] = [annB, annA] ∧
    sortAnnotations [annA, annB] ≠ sortAnnotations [annB, annA] := by
  decide

/-- Every character `toWinAnsiSafe` outputs lies in one of the two
WinAnsi-encodable ranges (`?` is 0x3f). -/
theorem toWinAnsiSafe_mem_range (t : List Char) :
    ∀ c ∈ toWinAnsiSafe t,
      (0x20 ≤ c.toNat ∧ c.toNat ≤ 0x7e) ∨
      (0xa0 ≤ c.toNat ∧ c.toNat ≤ 0xff) := by
  intro c hc
  simp only [toWinAnsiSafe, List.mem_map] at hc
  obtain ⟨c0, _, rfl⟩ := hc
  split
  · left; assumption
  · split
    · right; assumption
    · left; decide

theorem splitLinesAux_no_newline (l : List Char) (acc : List Char)
    (h : ∀ c ∈ l, c ≠ '\n') :
    splitLinesAux l acc = [acc.reverse ++ l] := by
  induction l generalizing acc with
  | nil => simp [splitLinesAux]
  | cons c rest ih =>
    have hc : c ≠ '\n' := h c (by simp)
    rw [splitLinesAux, if_neg hc, ih (c :: acc) (fun d hd => h d (by simp [hd]))]
    simp

/-- Splitting a newline-free string yields the whole string as its only
line. -/
theorem splitLines_no_newline (l : List Char) (h : ∀ c ∈ l, c ≠ '\n') :
    splitLines l = [l] := by
  simpa [splitLines] using splitLinesAux_no_newline l [] h

/-- `toWinAnsiSafe` output never contains a newline (newlines themselves are
substituted by `?`). -/
theorem toWinAnsiSafe_no_newline (t : List Char) :
    ∀ c ∈ toWinAnsiSafe t, c ≠ '\n' := by
  intro c hc
  rcases toWinAnsiSafe_mem_range t c hc with ⟨h1, _⟩ | ⟨h1, _⟩ <;>
    (intro he; subst he; revert h1; decide)

/-- The annotations of the layer-sorted list are those of the input. -/
theorem sortAnnotations_mem (l : List Annotation) (a : Annotation) :
    a ∈ sortAnnotations l ↔ a ∈ l :=
  (List.perm_insertionSort _ l).mem_iff

/-- C4 counterexample: in the "Hello" → "Hello, World" scenario every white
rectangle painted by pass 1 ends at x = 47 (stored width 33 plus the 4-pad
on each side), while the replacement text's measured box extends to
x = 10 + 72 = 82: the white region is not a superset of the current text's
measured bounding box, and no white rectangle is at least the measured
width. -/
theorem c4_counterexample :
    (∀ r ∈ pass1RectsFor [c4PdfPage] [c4PageInfo] annNative,
       r.x + r.width ≤ 47) ∧
    47 < annNative.data.x +
      estTextWidth 12 ("Hello, World".toList.length) ∧
    (∀ r ∈ pass1RectsFor [c4PdfPage] [c4PageInfo] annNative,
       r.width < estTextWidth 12 ("Hello, World".toList.length)) := by
  have hsplit : splitLines
        ['H', 'e', 'l', 'l', 'o', ',', ' ', 'W', 'o', 'r', 'l', 'd'] =
      [['H', 'e', 'l', 'l', 'o', ',', ' ', 'W', 'o', 'r', 'l', 'd']] :=
    splitLines_no_newline _ (by decide)
  have hrects : pass1RectsFor [c4PdfPage] [c4PageInfo] annNative =
      [⟨6, 766, 41, (79/5 : ℚ)⟩, ⟨6, (19186/25 : ℚ), 41, (464/25 : ℚ)⟩] := by
    norm_num [pass1RectsFor, annNative, c4PageInfo, c4PdfPage, getPageCtx,
      whiteRect, mapToExportCoords, jsOr, hsplit]
    intro h
    simp at h
  refine ⟨?_, ?_, ?_⟩
  · rw [hrects]; intro r hr
    simp only [List.mem_cons, List.not_mem_nil, or_false] at hr
    rcases hr with rfl | rfl <;> norm_num
  · norm_num [annNative, estTextWidth]
  · rw [hrects]; intro r hr
    simp only [List.mem_cons, List.not_mem_nil, or_false] at hr
    rcases hr with rfl | rfl <;> norm_num [estTextWidth]

/-- C4 (amended): the redaction white region is a superset of the target
boxes only up to the code's caps.  For a single-line native-edit text whose
estimated box (width `fontSize·len·0.5`, height `fontSize·0.88`) does not
exceed the stored annotation box nor the 320×100 caps, a pass-1 white
rectangle contains the estimated current-text box in export space; beyond
the stored width (e.g. replacement text longer than the original run) the
excess is not covered, because pass 1 takes the minimum of the stored and
estimated sizes. -/
theorem c4_amended (pg : PdfPage) (a : Annotation) (t : List Char)
    (w hh fs : ℚ)
    (htype : a.type = AnnType.text)
    (htext : a.data.text = some t) (hne : t ≠ [])
    (hnl : ∀ c ∈ t, c ≠ '\n')
    (hfs : a.data.fontSize = some fs) (hfs0 : 0 < fs)
    (hw : a.data.width = some w) (hw0 : 0 < w)
    (hht : a.data.height = some hh) (hh0 : 0 < hh)
    (hestW : estTextWidth fs t.length ≤ w)
    (hestW320 : estTextWidth fs t.length ≤ 320)
    (hestH : fs * (22/25) ≤ hh) (hestH100 : fs * (22/25) ≤ 100) :
    ∃ r ∈ pass1RectsFor [pg]
        [{ id := a.pageId, type := PageType.original,
           originalIndex := some 1, rotation := 0 }] a,
      rectContains r (mapToExportCoords a.data.x a.data.y
        (estTextWidth fs t.length) (fs * (22/25)) pg.width pg.height 0) := by
  have t0 : Int.tmod 0 360 = 0 := by decide
  have ht0 : t.isEmpty = false := by
    cases t with
    | nil => exact absurd rfl hne
    | cons c cs => rfl
  have hlen0 : ¬ t.length = 0 := by simpa using hne
  have hsplit := splitLines_no_newline t hnl
  simp only [pass1RectsFor, htype, htext, hfs, hw, hht, ne_eq,
    not_true_eq_false, if_neg hne, reduceIte, hsplit, ht0, List.filter,
    Bool.not_false, List.length_cons, List.length_nil, getPageCtx,
    List.find?, beq_self_eq_true, jsOr, hfs0.ne', if_neg hlen0]
  simp only [Nat.max_self, Nat.cast_one, one_mul]
  have hminW : min w (fs * (t.length : ℚ) * (1/2)) =
      fs * (t.length : ℚ) * (1/2) :=
    min_eq_right (by simpa [estTextWidth] using hestW)
  have hminW320 : min (320 : ℚ) (fs * (t.length : ℚ) * (1/2)) =
      fs * (t.length : ℚ) * (1/2) :=
    min_eq_right (by simpa [estTextWidth] using hestW320)
  have hminH : min hh (fs * (22/25)) = fs * (22/25) := min_eq_right hestH
  have hminH100 : min (100 : ℚ) (fs * (22/25)) = fs * (22/25) :=
    min_eq_right hestH100
  have hminW320l : fs * (t.length : ℚ) * (1/2) ⊓ 320 =
      fs * (t.length : ℚ) * (1/2) :=
    min_eq_left (by simpa [estTextWidth] using hestW320)
  have hminH100l : fs * (22/25) ⊓ 100 = fs * (22/25) :=
    min_eq_left hestH100
  have i90 : ¬ ((0:ℤ) = 90) := by decide
  have i180 : ¬ ((0:ℤ) = 180) := by decide
  have i270 : ¬ ((0:ℤ) = 270) := by decide
  have hget : [pg].get ⟨1 - 1, by norm_num⟩ = pg := rfl
  refine ⟨_, List.mem_append_right _ (List.mem_singleton_self _), ?_⟩
  simp only [if_pos hw0, if_pos hh0, hminW, hminW320, hminH, hminH100]
  simp only [whiteRect, hminW320l, hminH100l, mapToExportCoords, t0,
    i90, i180, i270, if_false, reduceIte, hget,
    rectContains, estTextWidth]
  refine ⟨by linarith, by linarith, by linarith, by linarith⟩

/-- Witness for C4's amended theorem at the "Hello" (pre-edit) instance of
the scenario. -/
theorem c4_amended_witness :
    ∃ r ∈ pass1RectsFor [c4PdfPage]
        [{ id := annNativeHello.pageId, type := PageType.original,
           originalIndex := some 1, rotation := 0 }] annNativeHello,
      rectContains r (mapToExportCoords annNativeHello.data.x
        annNativeHello.data.y (estTextWidth 12 "Hello".toList.length)
        (12 * (22/25)) c4PdfPage.width c4PdfPage.height 0) :=
  c4_amended c4PdfPage annNativeHello "Hello".toList 33 12 12 rfl rfl
    (by decide) (by decide) rfl (by norm_num) rfl (by norm_num) rfl
    (by norm_num)
    (by norm_num [estTextWidth, show ("Hello".toList.length = 5) from rfl])
    (by norm_num [estTextWidth, show ("Hello".toList.length = 5) from rfl])
    (by norm_num) (by norm_num)

/-- Pass 1 emits only white redaction rectangles. -/
theorem pass1OpsFor_isRedactWhite (pdfPages : List PdfPage)
    (pagesInfo : List PageInfo) (a : Annotation) :
    ∀ op ∈ pass1OpsFor pdfPages pagesInfo a, op.isRedactWhite = true := by
  intro op hop
  simp only [pass1OpsFor, List.mem_map] at hop
  obtain ⟨r, _, rfl⟩ := hop
  rfl

/-- Pass 2 never emits a white redaction rectangle (its ops are text lines,
stroke segments, eraser circles, shapes and images). -/
theorem pass2OpsFor_not_redactWhite (pdfPages : List PdfPage)
    (pagesInfo : List PageInfo) (cjk : Bool) (a : Annotation) :
    ∀ op ∈ pass2OpsFor pdfPages pagesInfo cjk a,
      op.isRedactWhite = false := by
  intro op hop
  unfold pass2OpsFor at hop
  repeat' (first | split at hop | dsimp only at hop)
  all_goals first
    | exact absurd hop (List.not_mem_nil op)
    | (rw [List.mem_filterMap] at hop
       obtain ⟨p, _, hf⟩ := hop
       split at hf
       · cases hf
       · cases hf; rfl)
    | (rw [List.mem_append] at hop
       rcases hop with hop | hop <;>
         first
           | (rw [List.mem_map] at hop; obtain ⟨q, _, rfl⟩ := hop; rfl)
           | exact absurd hop (List.not_mem_nil op))
    | (rw [List.mem_singleton] at hop; subst hop; rfl)

/-- C3: in the op stream of `applyAnnotations`, every redaction white
rectangle (pass 1) precedes every foreground op (pass 2): if the i-th op is
a redaction white and the j-th is any non-redaction op, then `i < j` —
no annotation's white-out is painted after another annotation's glyphs. -/
theorem c3_redaction_before_foreground (pdfPages : List PdfPage)
    (annotations : List Annotation) (pagesInfo : List PageInfo)
    (cjkFontAvailable : Bool) (i j : ℕ)
    (hwhite : ∃ op, (applyAnnotationsOps pdfPages annotations pagesInfo
        cjkFontAvailable)[i]? = some op ∧ op.isRedactWhite = true)
    (hfg : ∃ op, (applyAnnotationsOps pdfPages annotations pagesInfo
        cjkFontAvailable)[j]? = some op ∧ op.isRedactWhite = false) :
    i < j := by
  by_cases hpp : pdfPages.length = 0
  · rw [applyAnnotationsOps, if_pos hpp] at hwhite
    obtain ⟨op, hop, _⟩ := hwhite
    simp at hop
  · have hops : applyAnnotationsOps pdfPages annotations pagesInfo
        cjkFontAvailable =
        (sortAnnotations annotations).flatMap
            (pass1OpsFor pdfPages pagesInfo) ++
          (sortAnnotations annotations).flatMap
            (pass2OpsFor pdfPages pagesInfo cjkFontAvailable) := by
      rw [applyAnnotationsOps, if_neg hpp]
    rw [hops] at hwhite hfg
    set P1 := (sortAnnotations annotations).flatMap
      (pass1OpsFor pdfPages pagesInfo) with hP1
    set P2 := (sortAnnotations annotations).flatMap
      (pass2OpsFor pdfPages pagesInfo cjkFontAvailable) with hP2
    have hW : ∀ op ∈ P1, op.isRedactWhite = true := by
      intro op hop
      rw [hP1, List.mem_flatMap] at hop
      obtain ⟨a, _, hopa⟩ := hop
      exact pass1OpsFor_isRedactWhite pdfPages pagesInfo a op hopa
    have hF : ∀ op ∈ P2, op.isRedactWhite = false := by
      intro op hop
      rw [hP2, List.mem_flatMap] at hop
      obtain ⟨a, _, hopa⟩ := hop
      exact pass2OpsFor_not_redactWhite pdfPages pagesInfo cjkFontAvailable
        a op hopa
    have hiP1 : i < P1.length := by
      by_contra hc
      push_neg at hc
      rw [List.getElem?_append_right hc] at hwhite
      obtain ⟨op, hop, hw⟩ := hwhite
      have hmem : op ∈ P2 := List.getElem?_mem hop
      rw [hF op hmem] at hw
      cases hw
    have hjP1 : P1.length ≤ j := by
      by_contra hc
      push_neg at hc
      rw [List.getElem?_append_left hc] at hfg
      obtain ⟨op, hop, hw⟩ := hfg
      have hmem : op ∈ P1 := List.getElem?_mem hop
      rw [hW op hmem] at hw
      cases hw
    omega

/-- Witness for C3 on the "Hello" native edit: op 0 is a redaction white,
op 2 is the drawn text, and indeed 0 < 2. -/
theorem c3_redaction_before_foreground_witness : (0 : ℕ) < 2 := by
  have hsplit : splitLines ['H', 'e', 'l', 'l', 'o'] =
      [['H', 'e', 'l', 'l', 'o']] := by decide
  have hneeds : needsUnicodeFont ['H', 'e', 'l', 'l', 'o'] = false := by
    decide
  have cH : 'H'.toNat = 72 := rfl
  have ce : 'e'.toNat = 101 := rfl
  have cl : 'l'.toNat = 108 := rfl
  have co : 'o'.toNat = 111 := rfl
  have hops : applyAnnotationsOps [c4PdfPage] [annNativeHello] [c4PageInfo]
      false =
      [Op.redactWhite ⟨6, 766, 41, (79/5 : ℚ)⟩,
       Op.redactWhite ⟨6, (19186/25 : ℚ), 38, (464/25 : ℚ)⟩,
       Op.drawText ['H', 'e', 'l', 'l', 'o'] 10 770 12] := by
    norm_num [applyAnnotationsOps, sortAnnotations, List.insertionSort,
      pass1OpsFor, pass1RectsFor, pass2OpsFor, annNativeHello, c4PageInfo,
      c4PdfPage, getPageCtx, whiteRect, mapToExportCoords, jsOr, hsplit,
      toWinAnsiSafe, hneeds, cH, ce, cl, co, List.enum, List.enumFrom]
    have hne5 : ¬ ((['H', 'e', 'l', 'l', 'o'] : List Char) = []) := by decide
    norm_num [if_neg hne5, List.filterMap, hne5]
  exact c3_redaction_before_foreground [c4PdfPage] [annNativeHello]
    [c4PageInfo] false 0 2
    ⟨Op.redactWhite ⟨6, 766, 41, (79/5 : ℚ)⟩, by rw [hops]; rfl, rfl⟩
    ⟨Op.drawText ['H', 'e', 'l', 'l', 'o'] 10 770 12, by rw [hops]; rfl, rfl⟩

/-- With no embedded fallback font, every text op pass 2 emits carries the
WinAnsi-substituted form of its annotation's text (the newline separators
are themselves substituted by `?`, so a single line is drawn). -/
theorem pass2OpsFor_drawText (pdfPages : List PdfPage)
    (pagesInfo : List PageInfo) (a : Annotation) (s : List Char)
    (x y fs : ℚ)
    (h : Op.drawText s x y fs ∈ pass2OpsFor pdfPages pagesInfo false a) :
    a.type = AnnType.text ∧
      ∃ t, a.data.text = some t ∧ s = toWinAnsiSafe t := by
  obtain ⟨aid, ty, pid, data, ts⟩ := a
  obtain ⟨text, dx, dy, dbl, dw, dh, dfs, dne, doid, dneo, dpts, dst, dimg⟩ :=
    data
  unfold pass2OpsFor at h
  rcases hctx : getPageCtx pdfPages pagesInfo _ with _ | ctx <;> rw [hctx] at h
  · exact absurd h (List.not_mem_nil _)
  · cases ty <;> dsimp only at h
    case select => exact absurd h (List.not_mem_nil _)
    case hand => exact absurd h (List.not_mem_nil _)
    case text =>
      cases text with
      | none => exact absurd h (List.not_mem_nil _)
      | some t =>
        try dsimp only at h
        by_cases hte : t = []
        · rw [if_pos hte] at h; exact absurd h (List.not_mem_nil _)
        · rw [if_neg hte] at h
          try dsimp only at h
          simp only [Bool.false_and, Bool.false_eq_true, if_false] at h
          rw [splitLines_no_newline _ (toWinAnsiSafe_no_newline t)] at h
          simp only [List.enum, List.enumFrom, List.mem_filterMap,
            List.mem_singleton] at h
          obtain ⟨p, hp, hf⟩ := h
          subst hp
          have hsne : ¬ (toWinAnsiSafe t = []) := by
            intro hnil
            have hlen := congrArg List.length hnil
            simp only [toWinAnsiSafe, List.length_map, List.length_nil]
              at hlen
            exact hte (List.length_eq_zero.mp hlen)
          rw [if_neg hsne] at hf
          simp only [Option.some.injEq, Op.drawText.injEq] at hf
          obtain ⟨hs, -, -, -⟩ := hf
          exact ⟨rfl, t, rfl, hs.symm⟩
    case draw =>
      rcases dpts with _ | path
      · exact absurd h (List.not_mem_nil _)
      · try dsimp only at h
        by_cases hl : 1 < path.length
        · rw [if_pos hl] at h; revert h; simp
        · rw [if_neg hl] at h; exact absurd h (List.not_mem_nil _)
    case highlight =>
      rcases dpts with _ | path
      · exact absurd h (List.not_mem_nil _)
      · try dsimp only at h
        by_cases hl : 1 < path.length
        · rw [if_pos hl] at h; revert h; simp
        · rw [if_neg hl] at h; exact absurd h (List.not_mem_nil _)
    case eraser =>
      rcases dpts with _ | path
      · exact absurd h (List.not_mem_nil _)
      · try dsimp only at h
        by_cases hl : 1 < path.length
        · rw [if_pos hl] at h; revert h; simp
        · rw [if_neg hl] at h; exact absurd h (List.not_mem_nil _)
    case shape =>
      rcases dst with _ | sk
      · exact absurd h (List.not_mem_nil _)
      · cases sk <;> revert h <;> simp
    case image =>
      rcases dimg with _ | ik
      · exact absurd h (List.not_mem_nil _)
      · cases ik <;> revert h <;> simp

/-- C9: when the Unicode fallback font is unavailable (fetch failure,
non-OK response or unembeddable bytes leave `cjkFont = null`), the export
still produces its op stream, every drawn text string is the
WinAnsi-substituted form of its annotation's text, every drawn character
lies in the encodable ranges (so pdf-lib's WinAnsi encoder cannot throw),
and the substitution keeps characters in 0x20–0x7E and 0xA0–0xFF while
replacing every other character by `?`. -/
theorem c9_font_fallback_degradation :
    (∀ (pdfPages : List PdfPage) (annotations : List Annotation)
       (pagesInfo : List PageInfo) (s : List Char) (x y fs : ℚ),
       Op.drawText s x y fs ∈
         applyAnnotationsOps pdfPages annotations pagesInfo false →
       (∃ a ∈ annotations, a.type = AnnType.text ∧
          ∃ t, a.data.text = some t ∧ s = toWinAnsiSafe t) ∧
       ∀ c ∈ s, (0x20 ≤ c.toNat ∧ c.toNat ≤ 0x7e) ∨
         (0xa0 ≤ c.toNat ∧ c.toNat ≤ 0xff)) ∧
    (∀ (t : List Char) (i : ℕ) (hlen : i < t.length),
       (toWinAnsiSafe t)[i]? = some (
         if (0x20 ≤ t[i].toNat ∧ t[i].toNat ≤ 0x7e) ∨
            (0xa0 ≤ t[i].toNat ∧ t[i].toNat ≤ 0xff)
         then t[i] else '?')) := by
  constructor
  · intro pdfPages annotations pagesInfo s x y fs hop
    by_cases hpp : pdfPages.length = 0
    · rw [applyAnnotationsOps, if_pos hpp] at hop
      exact absurd hop (List.not_mem_nil _)
    · rw [applyAnnotationsOps, if_neg hpp, List.mem_append] at hop
      rcases hop with hop | hop
      · rw [List.mem_flatMap] at hop
        obtain ⟨a, _, hopa⟩ := hop
        have := pass1OpsFor_isRedactWhite pdfPages pagesInfo a _ hopa
        cases this
      · rw [List.mem_flatMap] at hop
        obtain ⟨a, hasort, hopa⟩ := hop
        obtain ⟨hty, t, htx, hs⟩ :=
          pass2OpsFor_drawText pdfPages pagesInfo a s x y fs hopa
        subst hs
        exact ⟨⟨a, (sortAnnotations_mem annotations a).mp hasort, hty, t,
          htx, rfl⟩, toWinAnsiSafe_mem_range t⟩
  · intro t i hlen
    have hmap : (toWinAnsiSafe t)[i]? = (t[i]?).map fun c =>
        if 0x20 ≤ c.toNat ∧ c.toNat ≤ 0x7e then c
        else if 0xa0 ≤ c.toNat ∧ c.toNat ≤ 0xff then c
        else '?' := by
      rw [toWinAnsiSafe, List.getElem?_map]
    rw [hmap, List.getElem?_eq_getElem hlen]
    by_cases h1 : 0x20 ≤ t[i].toNat ∧ t[i].toNat ≤ 0x7e
    · simp [h1]
    · by_cases h2 : 0xa0 ≤ t[i].toNat ∧ t[i].toNat ≤ 0xff
      · simp [h1, h2]
      · simp [h1, h2]

/-- Witness for C9: with the fallback font unavailable, the op drawn for
`c9Ann` is exactly "H?". -/
theorem c9_font_fallback_degradation_witness :
    (∃ a ∈ [c9Ann], a.type = AnnType.text ∧ ∃ t, a.data.text = some t ∧
       ('H' :: '?' :: []) = toWinAnsiSafe t) ∧
    (∀ c ∈ ('H' :: '?' :: [] : List Char),
       (0x20 ≤ c.toNat ∧ c.toNat ≤ 0x7e) ∨
       (0xa0 ≤ c.toNat ∧ c.toNat ≤ 0xff)) := by
  have cH : 'H'.toNat = 72 := rfl
  have cmid : '中'.toNat = 20013 := rfl
  have hmem : Op.drawText ('H' :: '?' :: []) 10 770 12 ∈
      applyAnnotationsOps [c4PdfPage] [c9Ann] [c4PageInfo] false := by
    have hops : applyAnnotationsOps [c4PdfPage] [c9Ann] [c4PageInfo] false =
        [Op.redactWhite ⟨6, (19186/25 : ℚ), 20, (464/25 : ℚ)⟩,
         Op.drawText ('H' :: '?' :: []) 10 770 12] := by
      norm_num [applyAnnotationsOps, sortAnnotations, List.insertionSort,
        pass1OpsFor, pass1RectsFor, pass2OpsFor, c9Ann, c4PageInfo,
        c4PdfPage, getPageCtx, whiteRect, mapToExportCoords, jsOr,
        toWinAnsiSafe, cH, cmid,
        show splitLines ('H' :: '中' :: []) = [('H' :: '中' :: [])] from
          by decide,
        show splitLines ('H' :: '?' :: []) = [('H' :: '?' :: [])] from
          by decide,
        List.enum, List.enumFrom]
      have hne2 : ¬ (('H' :: '中' :: [] : List Char) = []) := by decide
      have hne2b : ¬ (('H' :: '?' :: [] : List Char) = []) := by decide
      norm_num [if_neg hne2, if_neg hne2b, List.filterMap, hne2, hne2b]
    rw [hops]
    simp
  exact (c9_font_fallback_degradation.1 [c4PdfPage] [c9Ann] [c4PageInfo]
    ('H' :: '?' :: []) 10 770 12 hmem)

/-- C8 counterexample: with the text tool, editing the same group twice
(click, commit "Hi", click again, commit "Hey") leaves two live
`isNativeEdit` annotations with the same `(pageId, originalTextId)` —
the blur-commit path never consults the duplicate lookup. -/
theorem c8_counterexample :
    countNativeEdits
      (blurCommit 4 "p-1" [c8Group] "Hey".toList
        (clickGroup 3 AnnType.text "p-1" c8Group
          (blurCommit 2 "p-1" [c8Group] "Hi".toList
            (clickGroup 1 AnnType.text "p-1" c8Group
              ⟨[], none⟩)))).annotations "p-1" "g1" = 2 := by decide

/-- No native-edit annotation for `gid` at all means the per-page count is
zero for every page. -/
theorem countNativeEdits_eq_zero (annotations : List Annotation)
    (pid gid : String)
    (h : hasNativeEditAnnotation annotations gid = false) :
    countNativeEdits annotations pid gid = 0 := by
  simp only [ hasNativeEditAnnotation, List.any_eq_false, Bool.and_eq_true,
    decide_eq_true_eq, not_and] at h
  simp only [countNativeEdits, List.length_eq_zero, List.filter_eq_nil_iff,
    Bool.and_eq_true, decide_eq_true_eq, not_and]
  intro a ha h1 h2
  exact h a ha h1.1 h2

/-- C8 (amended): only the select-tool creation path enforces the
at-most-one rule, through a lookup keyed on `originalTextId` alone: a
select-tool click on a group that already has a native-edit annotation
leaves the state unchanged, and every select-tool click preserves
at-most-one live native-edit annotation per `(pageId, originalTextId)`.
The text-tool blur-commit path is unguarded and can create duplicates
(see the counterexample). -/
theorem c8_select_click_no_duplicate (now : ℤ) (pageId pid gid : String)
    (g : TextGroup) (st : LayerState) :
    ( hasNativeEditAnnotation st.annotations g.id = true →
      clickGroup now AnnType.select pageId g st = st) ∧
    (countNativeEdits st.annotations pid gid ≤ 1 →
      countNativeEdits
        (clickGroup now AnnType.select pageId g st).annotations pid gid
        ≤ 1) := by
  constructor
  · intro h
    simp [clickGroup, h]
  · intro hle
    by_cases hhas : hasNativeEditAnnotation st.annotations g.id
    · simpa [clickGroup, hhas] using hle
    · simp only [Bool.not_eq_true] at hhas
      have hclick : clickGroup now AnnType.select pageId g st =
          { st with annotations :=
              st.annotations ++ [handleNativeTextClick now pageId g] } := by
        simp [clickGroup, hhas]
      rw [hclick]
      rw [countNativeEdits] at hle ⊢
      rw [List.filter_append, List.length_append]
      by_cases hg : gid = g.id
      · subst hg
        have h0 := countNativeEdits_eq_zero st.annotations pid g.id hhas
        rw [countNativeEdits] at h0
        rw [h0]
        have hone := List.length_filter_le
          (fun a : Annotation =>
            decide (a.type = AnnType.text) && a.data.isNativeEdit &&
              decide (a.pageId = pid) &&
              decide (a.data.originalTextId = some g.id))
          [handleNativeTextClick now pageId g]
        simp only [List.length_singleton] at hone
        omega
      · have hnil : (List.filter
            (fun a : Annotation =>
              decide (a.type = AnnType.text) && a.data.isNativeEdit &&
                decide (a.pageId = pid) &&
                decide (a.data.originalTextId = some gid))
            [handleNativeTextClick now pageId g]) = [] := by
          simp only [List.filter, handleNativeTextClick]
          simp only [decide_eq_true_eq, Option.some.injEq]
          have hg2 : ¬ (g.id = gid) := fun h => hg h.symm
          simp [hg2]
        rw [hnil]
        simpa using hle

/-- Witness for C8's amended theorem: a select-tool click on a group that
already has a native-edit annotation changes nothing, and the count stays
at most one. -/
theorem c8_select_click_no_duplicate_witness :
    clickGroup 2 AnnType.select "p-1" c8Group
        ⟨[handleNativeTextClick 1 "p-1" c8Group], none⟩ =
      ⟨[handleNativeTextClick 1 "p-1" c8Group], none⟩ ∧
    countNativeEdits (clickGroup 2 AnnType.select "p-1" c8Group
        ⟨[handleNativeTextClick 1 "p-1" c8Group], none⟩).annotations
      "p-1" "g1" ≤ 1 :=
  ⟨(c8_select_click_no_duplicate 2 "p-1" "p-1" "g1" c8Group
      ⟨[handleNativeTextClick 1 "p-1" c8Group], none⟩).1 (by decide),
   (c8_select_click_no_duplicate 2 "p-1" "p-1" "g1" c8Group
      ⟨[handleNativeTextClick 1 "p-1" c8Group], none⟩).2 (by decide)⟩

/-- C5 (amended): export painting sorts annotations into non-decreasing
fixed layer rank (highlight < shape < image < text < draw < eraser), the
output is a permutation of the input, and same-type annotations keep their
input order (stable sort) — so the output ordering is determined by the
input ordering, but input orders differing on same-type annotations give
correspondingly different output orderings. -/
theorem c5_layer_sort (l : List Annotation) :
    (sortAnnotations l).Sorted
      (fun a b => layerRank a.type ≤ layerRank b.type) ∧
    List.Perm (sortAnnotations l) l := by
  constructor
  · haveI : IsTotal Annotation
        (fun a b => layerRank a.type ≤ layerRank b.type) :=
      ⟨fun a b => Nat.le_total _ _⟩
    haveI : IsTrans Annotation
        (fun a b => layerRank a.type ≤ layerRank b.type) :=
      ⟨fun _ _ _ h1 h2 => Nat.le_trans h1 h2⟩
    exact List.sorted_insertionSort _ l
  · exact List.perm_insertionSort _ l
